import Mathlib

/-!
Verification of the customer-service bot's answer-resolution pipeline
(`src/bot.js`) against its natural-language specification.

The JavaScript is shallowly embedded: the mutable module state (the two
per-client timestamp maps and the circuit-breaker variables) is threaded
explicitly, `Date.now()` is modelled as a single per-request clock value
`Env.now`, and every outbound network interaction (the image fetch, the
Gemini call, the OpenRouter/LLaMA call) is modelled by an outcome value
carried in `Env`, quantified over in the theorems.  JavaScript truthiness
of the optional string fields (`undefined` and `""` are both falsy) is
modelled by `truthy` on `Option String`.
-/

namespace Bot

/-- JS truthiness for an optional string: `undefined`/absent and the empty
string are falsy, every other string is truthy. -/
def truthy : Option String → Bool
  | none => false
  | some s => !(s == "")

/-- A per-client timestamp store, modelling one of the two `Map` objects
`userRequests` / `userImageRequests` (client key to array of ms timestamps). -/
def ReqMap : Type := List (String × List Nat)

/-- Model of `map.has(ip)` on the modelled `Map`. -/
def hasKey : ReqMap → String → Bool
  | [], _ => false
  | (k, _) :: rest, ip => k == ip || hasKey rest ip

/-- Model of `map.get(ip)` on the modelled `Map`, with `[]` for an absent key (the
source only reads a key after inserting `[]` for it, so the default is
never observable). -/
def getTs : ReqMap → String → List Nat
  | [], _ => []
  | (k, w) :: rest, ip => if k == ip then w else getTs rest ip

/-- Model of `map.set(ip, v)` on the modelled `Map`: replace the binding if the key
is present, otherwise append it. -/
def setTs : ReqMap → String → List Nat → ReqMap
  | [], ip, v => [(ip, v)]
  | (k, w) :: rest, ip, v =>
      if k == ip then (ip, v) :: rest else (k, w) :: setTs rest ip v

/-- The `if (!map.has(ip)) map.set(ip, [])` prelude shared by all four
rate-limiter functions. -/
def touch (m : ReqMap) (ip : String) : ReqMap :=
  if hasKey m ip then m else setTs m ip []

/-- Model of `isRateLimited(ip)` from src/bot.js (lines 69-76): ensure the client
key exists, filter its timestamps to those strictly inside the trailing
window, and report limited iff at least `limit` remain.  The returned map
is the (possibly touched) `userRequests`; no timestamp is recorded. -/
def isRateLimited (now limit interval : Nat) (m : ReqMap) (ip : String) :
    Bool × ReqMap :=
  let m1 := touch m ip
  let timestamps := (getTs m1 ip).filter (fun ts => decide (now - ts < interval))
  (decide (limit ≤ timestamps.length), m1)

/-- Model of `isImageRateLimited(ip)` from src/bot.js (lines 78-85); textually the
same algorithm as `isRateLimited` over the image map and image limits. -/
def isImageRateLimited (now limit interval : Nat) (m : ReqMap) (ip : String) :
    Bool × ReqMap :=
  let m1 := touch m ip
  let timestamps := (getTs m1 ip).filter (fun ts => decide (now - ts < interval))
  (decide (limit ≤ timestamps.length), m1)

/-- Model of `updateRateLimit(ip)` from src/bot.js (lines 87-96): push `now` onto the
client's list, then store only the entries strictly inside the window. -/
def updateRateLimit (now interval : Nat) (m : ReqMap) (ip : String) : ReqMap :=
  let m1 := touch m ip
  setTs m1 ip (((getTs m1 ip) ++ [now]).filter (fun ts => decide (now - ts < interval)))

/-- Model of `updateImageRateLimit(ip)` from src/bot.js (lines 98-107); same algorithm
over the image map. -/
def updateImageRateLimit (now interval : Nat) (m : ReqMap) (ip : String) : ReqMap :=
  let m1 := touch m ip
  setTs m1 ip (((getTs m1 ip) ++ [now]).filter (fun ts => decide (now - ts < interval)))

/-- One `{question, answer}` record of the FAQ table (`faq.json`). -/
structure FaqEntry where
  question : String
  answer : String
deriving DecidableEq

/-- Model of `question.toLowerCase()`, characterwise. -/
def toLowerChars (s : String) : List Char := s.data.map Char.toLower

/-- The list of adjacent character pairs of a string.
Modelled from the spec: the similarity metric of §4.3 (the
string-similarity library used by `checkFAQ` is not part of src/), taken
as the bigram overlap ratio the spec names. -/
def bigramList : List Char → List (Char × Char)
  | a :: b :: rest => (a, b) :: bigramList (b :: rest)
  | _ => []

/-- Multiset-intersection size of two bigram lists: each bigram of the
second list is matched against (and consumes) at most one remaining bigram
of the first.
Modelled from the spec: §4.3's overlap count for the bigram ratio. -/
def interCard : List (Char × Char) → List (Char × Char) → Nat
  | _, [] => 0
  | avail, b :: rest =>
      if b ∈ avail then interCard (avail.erase b) rest + 1
      else interCard avail rest

/-- Normalized lexical similarity of two (already lowercased) strings.
Modelled from the spec: §4.3 requires a symmetric score in [0,1] with
identical strings at 1.0, "e.g. a bigram ... overlap ratio"; this is the
Dice bigram coefficient `2*overlap / (len1 + len2 - 2)`, with the two
degenerate guards (equal strings score 1, strings shorter than two
characters otherwise score 0). -/
def compareTwoStrings (a b : List Char) : ℚ :=
  if a = b then 1
  else if a.length < 2 ∨ b.length < 2 then 0
  else mkRat (2 * (interCard (bigramList a) (bigramList b) : Int)) (a.length + b.length - 2)

/-- Scan tail of the best-match selection: keep the running best rating and
its index, replacing them only on a strictly greater rating.
Modelled from the spec: §4.3's maximum-score selection with
ties broken by the lowest index (first-occurrence priority). -/
def bestAux : List ℚ → ℚ → Nat → Nat → ℚ × Nat
  | [], bv, _, bi => (bv, bi)
  | r :: rest, bv, i, bi =>
      if bv < r then bestAux rest r (i + 1) i else bestAux rest bv (i + 1) bi

/-- Best (rating, index) over a rating list; the source guards against an
empty FAQ before this runs, so the `[]` default is never reached.
Modelled from the spec: §4.3 (see `bestAux`). -/
def findBestPair : List ℚ → ℚ × Nat
  | [] => (0, 0)
  | r :: rest => bestAux rest r 1 0

/-- Model of `checkFAQ(question)` from src/bot.js (lines 112-129): no match while the
FAQ is unloaded or empty; otherwise score the lowercased query against every
lowercased stored question, take the best match, and return that entry's
answer iff its rating reaches the threshold. -/
def checkFAQ (faqLoaded : Bool) (faq : List FaqEntry) (threshold : ℚ)
    (question : String) : Option String :=
  if !faqLoaded || faq.length == 0 then none
  else
    let scores := faq.map
      (fun item => compareTwoStrings (toLowerChars question) (toLowerChars item.question))
    let best := findBestPair scores
    if threshold ≤ best.1 then
      match faq.get? best.2 with
      | some e => some e.answer
      | none => none
    else none

/-- The circuit-breaker module state of src/bot.js (lines 227-228):
`rateLimitHit` / `rateLimitHitTime` (`null` modelled as `none`). -/
structure Breaker where
  rateLimitHit : Bool
  rateLimitHitTime : Option Nat
deriving DecidableEq

/-- The hardcoded `5 * 60 * 1000` ms breaker cooldown of `callLLaMA`. -/
def COOLDOWN_MS : Nat := 5 * 60 * 1000

/-- Outcome of `fetch(imageUrl)` inside `callGemini`: `fail` covers both a
non-OK status and a thrown network error (each makes `callGemini` return
`null`); `ok` carries the fetched byte count (the bytes and content-type
header are only forwarded to the provider and never affect control flow). -/
inductive FetchOutcome where
  | fail
  | ok (sizeBytes : Nat)
deriving DecidableEq

/-- Outcome of the Gemini generateContent call: `fail` covers a non-OK
status and a thrown error (both yield `null`); `ok` carries the optional
extracted candidate text. -/
inductive GeminiApiOutcome where
  | fail
  | ok (text : Option String)
deriving DecidableEq

/-- Outcome of the OpenRouter chat-completions call: `overload` is HTTP 429,
`fail` covers any other non-OK status and a thrown error, `ok` carries the
optional extracted message content. -/
inductive LlamaApiOutcome where
  | overload
  | fail
  | ok (content : Option String)
deriving DecidableEq

/-- The environment of one request: the clock, the (env-var configurable)
limits and threshold, the loaded FAQ, and the outcome of every external
interaction the request may perform.  Defaults from the source:
text 5/60000ms, image 3/60000ms, threshold 0.6. -/
structure Env where
  now : Nat
  textRateLimit : Nat
  textRateInterval : Nat
  imageRateLimit : Nat
  imageRateInterval : Nat
  faqLoaded : Bool
  faq : List FaqEntry
  faqThreshold : ℚ
  decodedLen : String → Nat
  urlProtocol : String → Option String
  geminiKey : Bool
  geminiFetch : FetchOutcome
  geminiApi : GeminiApiOutcome
  llamaKey : Bool
  llamaApi : LlamaApiOutcome

/-- The `sizeBytes > 1.2 * 1024 * 1024` comparison (1258291.2 is not an
integer, so the strict comparison is scaled by 5: `5*n > 6291456`). -/
def exceedsCap (n : Nat) : Bool := decide (6291456 < 5 * n)

/-- Result of `callGemini`: the returned string-or-null, plus whether the
Gemini HTTP API itself was reached ("the vision provider was invoked"). -/
structure GeminiResult where
  answer : Option String
  apiCalled : Bool
deriving DecidableEq

/-- Model of `callGemini(prompt, imageUrl, imageBase64, imageMimeType)` from
src/bot.js (lines 134-219).  The prompt and mime type only shape the
request payload, never the control flow.  Case A (remote URL): a failed
fetch returns `null`; fetched bytes over the cap return the literal size
message.  Case B (inline base64): decoded bytes over the cap return the
same message.  Otherwise the API outcome decides the answer. -/
def callGemini (env : Env) (_prompt : String) (imageUrl imageBase64 : Option String)
    (_imageMimeType : String) : GeminiResult :=
  if !env.geminiKey then { answer := none, apiCalled := false }
  else
    let urlStep : Option GeminiResult :=
      if truthy imageUrl then
        match env.geminiFetch with
        | .fail => some { answer := none, apiCalled := false }
        | .ok sizeBytes =>
            if exceedsCap sizeBytes then
              some { answer := some "Please upload an image smaller than 1.2 MB.",
                     apiCalled := false }
            else none
      else none
    match urlStep with
    | some r => r
    | none =>
        if truthy imageBase64 && exceedsCap (env.decodedLen (imageBase64.getD "")) then
          { answer := some "Please upload an image smaller than 1.2 MB.",
            apiCalled := false }
        else
          match env.geminiApi with
          | .fail => { answer := none, apiCalled := true }
          | .ok t => { answer := t, apiCalled := true }

/-- Result of `callLLaMA`: the returned string-or-null, the breaker state
after the call, and whether the OpenRouter API was reached. -/
structure LlamaResult where
  answer : Option String
  breaker : Breaker
  apiCalled : Bool
deriving DecidableEq

/-- The canned degraded-service string `callLLaMA` returns both when the
breaker is active and on a fresh 429. -/
def limitedMsg : String := "Service temporarily limited. Please try again in a few minutes."

/-- Model of `callLLaMA(prompt)` from src/bot.js (lines 231-310).  With the breaker
tripped and inside the 5-minute cooldown it returns the canned limited
message without touching the API; past the cooldown it clears the trip and
proceeds.  A 429 re-trips the breaker (at `now`) and returns the same
canned message; other failures return `null`. -/
def callLLaMA (env : Env) (breaker : Breaker) (_prompt : String) : LlamaResult :=
  if !env.llamaKey then { answer := none, breaker := breaker, apiCalled := false }
  else
    let cb : Option LlamaResult × Breaker :=
      if breaker.rateLimitHit then
        if env.now - breaker.rateLimitHitTime.getD 0 < COOLDOWN_MS then
          (some { answer := some limitedMsg, breaker := breaker, apiCalled := false },
           breaker)
        else (none, { rateLimitHit := false, rateLimitHitTime := none })
      else (none, breaker)
    match cb with
    | (some r, _) => r
    | (none, b) =>
        match env.llamaApi with
        | .overload =>
            { answer := some limitedMsg,
              breaker := { rateLimitHit := true, rateLimitHitTime := some env.now },
              apiCalled := true }
        | .fail => { answer := none, breaker := b, apiCalled := true }
        | .ok c => { answer := c, breaker := b, apiCalled := true }

/-- The three module-level pieces of mutable state the chat endpoint
touches: the two rate maps and the breaker. -/
structure PipeState where
  userRequests : ReqMap
  userImageRequests : ReqMap
  breaker : Breaker

/-- One inbound `/api/chat` request body plus the resolved client key
(`x-forwarded-for` / remote address).  A missing JSON field is `none`; a
field present as `""` is `some ""` (both are falsy in the source). -/
structure ChatRequest where
  message : String
  imageUrl : Option String
  imageBase64 : Option String
  imageMimeType : Option String
  ip : String

/-- The observable outcome of one request: the reply sent, the module
state afterwards, and which external calls were attempted
(`llamaFnCalled` marks entry into the text stage, i.e. `callLLaMA` was
invoked; the two `ApiCalled` flags mark actual provider-API reach). -/
structure ChatResult where
  reply : String
  state : PipeState
  geminiApiCalled : Bool
  llamaFnCalled : Bool
  llamaApiCalled : Bool

/-- Guard `imageUrl || imageBase64` of the image-class admission check. -/
def imgPresent (req : ChatRequest) : Bool :=
  truthy req.imageUrl || truthy req.imageBase64

/-- Guard `imageBase64 || imageMimeType || imageUrl` of the image block. -/
def imageBlockEntered (req : ChatRequest) : Bool :=
  truthy req.imageBase64 || truthy req.imageMimeType || truthy req.imageUrl

/-- Model of `let mimeType = imageMimeType || "image/jpeg"`. -/
def resolvedMime (req : ChatRequest) : String :=
  if truthy req.imageMimeType then req.imageMimeType.getD "" else "image/jpeg"

/-- The endpoint's media-type allow-list. -/
def allowedTypes : List String := ["image/jpeg", "image/png", "image/webp"]

/-- The `Unsupported image type:` reply with the offending type spliced in. -/
def unsupportedMsg (mimeType : String) : String :=
  "Unsupported image type: " ++ mimeType ++ ". Please upload JPEG, PNG, or WebP."

/-- Integer tenths-of-MiB rendering standing in for the source's
floating-point `(sizeBytes / 1048576).toFixed(1)` (truncated rather than
rounded; the digits never influence control flow). -/
def fmtMB (sizeBytes : Nat) : String :=
  let tenths := 10 * sizeBytes / 1048576
  toString (tenths / 10) ++ "." ++ toString (tenths % 10)

/-- The oversized-inline-image reply of the endpoint's size check. -/
def sizeErrorReply (sizeBytes : Nat) : String :=
  "Image too large (" ++ fmtMB sizeBytes ++ " MB). Please upload under 1.2 MB."

/-- The endpoint's URL validation (src/bot.js lines 401-415): `none` means
the URL passed; `some msg` is the rejection reply.  `Env.urlProtocol`
models `new URL(...)`: `none` is a constructor throw, `some p` the parsed
protocol. -/
def urlRejection (env : Env) (req : ChatRequest) : Option String :=
  if truthy req.imageUrl then
    match env.urlProtocol (req.imageUrl.getD "") with
    | none => some "Invalid image URL format."
    | some p =>
        if !(["http:", "https:"].contains p) then
          some "Invalid image URL. Only HTTP/HTTPS URLs are allowed."
        else none
  else none

/-- Stage 3 of the endpoint (src/bot.js lines 437-454): call LLaMA; a
truthy answer is recorded as a text-class event and sent, otherwise the
static fallback reply is sent. -/
def textStage (env : Env) (st : PipeState) (req : ChatRequest)
    (gApi : Bool) : ChatResult :=
  let l := callLLaMA env st.breaker req.message
  let st1 : PipeState := { st with breaker := l.breaker }
  if truthy l.answer then
    { reply := l.answer.getD "",
      state := { st1 with
        userRequests := updateRateLimit env.now env.textRateInterval st1.userRequests req.ip },
      geminiApiCalled := gApi, llamaFnCalled := true, llamaApiCalled := l.apiCalled }
  else
    { reply := "Sorry, I cannot answer that right now. Please try again later.",
      state := st1,
      geminiApiCalled := gApi, llamaFnCalled := true, llamaApiCalled := l.apiCalled }

/-- Stage 2 of the endpoint (src/bot.js lines 374-434): validate the
declared type, the inline payload size and the URL (each rejection replies
immediately), then call Gemini; a truthy vision answer records both event
classes and is sent, otherwise control falls through to the text stage. -/
def imageStage (env : Env) (st : PipeState) (req : ChatRequest) : ChatResult :=
  let mimeType := resolvedMime req
  if !(allowedTypes.contains mimeType) then
    { reply := unsupportedMsg mimeType, state := st,
      geminiApiCalled := false, llamaFnCalled := false, llamaApiCalled := false }
  else if truthy req.imageBase64 && exceedsCap (env.decodedLen (req.imageBase64.getD "")) then
    { reply := sizeErrorReply (env.decodedLen (req.imageBase64.getD "")), state := st,
      geminiApiCalled := false, llamaFnCalled := false, llamaApiCalled := false }
  else
    match urlRejection env req with
    | some msg =>
        { reply := msg, state := st,
          geminiApiCalled := false, llamaFnCalled := false, llamaApiCalled := false }
    | none =>
        let g := callGemini env req.message req.imageUrl req.imageBase64 mimeType
        if truthy g.answer then
          { reply := g.answer.getD "",
            state := { st with
              userRequests := updateRateLimit env.now env.textRateInterval st.userRequests req.ip,
              userImageRequests :=
                updateImageRateLimit env.now env.imageRateInterval st.userImageRequests req.ip },
            geminiApiCalled := g.apiCalled, llamaFnCalled := false, llamaApiCalled := false }
        else textStage env st req g.apiCalled

/-- The `/api/chat` handler (src/bot.js lines 345-455): missing message
guard, text-class admission, image-class admission (only when an image
reference is present), FAQ lookup (a hit records a text event), then the
image block (when any image field is present) and the text stage, ending
at the static fallback. -/
def processChat (env : Env) (st : PipeState) (req : ChatRequest) : ChatResult :=
  if req.message == "" then
    { reply := "No message received.", state := st,
      geminiApiCalled := false, llamaFnCalled := false, llamaApiCalled := false }
  else
    let r1 := isRateLimited env.now env.textRateLimit env.textRateInterval
      st.userRequests req.ip
    let st1 : PipeState := { st with userRequests := r1.2 }
    if r1.1 then
      { reply := "Too many requests. Please slow down.", state := st1,
        geminiApiCalled := false, llamaFnCalled := false, llamaApiCalled := false }
    else
      let r2 := if imgPresent req then
          isImageRateLimited env.now env.imageRateLimit env.imageRateInterval
            st1.userImageRequests req.ip
        else (false, st1.userImageRequests)
      let st2 : PipeState := { st1 with userImageRequests := r2.2 }
      if r2.1 then
        { reply := "Too many image requests. Please slow down.", state := st2,
          geminiApiCalled := false, llamaFnCalled := false, llamaApiCalled := false }
      else
        let faqAnswer := checkFAQ env.faqLoaded env.faq env.faqThreshold req.message
        if truthy faqAnswer then
          { reply := faqAnswer.getD "",
            state := { st2 with
              userRequests := updateRateLimit env.now env.textRateInterval
                st2.userRequests req.ip },
            geminiApiCalled := false, llamaFnCalled := false, llamaApiCalled := false }
        else
          if imageBlockEntered req then imageStage env st2 req
          else textStage env st2 req false

/-! Concrete inputs used by witnesses and counterexamples. -/

/-- A quiet baseline environment: defaults from the source, empty FAQ, no
provider keys, every outcome a failure. -/
def baseEnv : Env :=
  { now := 100000, textRateLimit := 5, textRateInterval := 60000,
    imageRateLimit := 3, imageRateInterval := 60000,
    faqLoaded := false, faq := [], faqThreshold := mkRat 6 10,
    decodedLen := fun _ => 0, urlProtocol := fun _ => none,
    geminiKey := false, geminiFetch := FetchOutcome.fail,
    geminiApi := GeminiApiOutcome.fail,
    llamaKey := false, llamaApi := LlamaApiOutcome.fail }

/-- Baseline pristine module state. -/
def baseState : PipeState :=
  { userRequests := [], userImageRequests := [],
    breaker := { rateLimitHit := false, rateLimitHitTime := none } }

/-- A plain text request. -/
def baseReq : ChatRequest :=
  { message := "hello", imageUrl := none, imageBase64 := none,
    imageMimeType := none, ip := "1.2.3.4" }

/-- State with five text events inside the last minute for the client. -/
def stC2 : PipeState :=
  { baseState with
    userRequests := [("1.2.3.4", [99999, 99998, 99997, 99996, 99995])] }

/-- Environment whose FAQ matches the C3 query exactly. -/
def envC3 : Env :=
  { baseEnv with
    faqLoaded := true
    faq := [{ question := "What are your hours", answer := "9am-6pm Mon-Sat" }] }

/-- State with three image events inside the last minute for the client. -/
def stC3 : PipeState :=
  { baseState with
    userImageRequests := [("1.2.3.4", [99999, 99998, 99997])] }

/-- A FAQ-matching message together with a remote image reference. -/
def reqC3 : ChatRequest :=
  { baseReq with
    message := "what are your hours"
    imageUrl := some "http://shop.example/receipt.png" }

/-- Environment where the remote image fetch fails and LLaMA answers. -/
def envC4 : Env :=
  { baseEnv with
    urlProtocol := fun _ => some "http:"
    geminiKey := true
    geminiFetch := FetchOutcome.fail
    geminiApi := GeminiApiOutcome.ok (some "unused")
    llamaKey := true
    llamaApi := LlamaApiOutcome.ok (some "llama answer") }

/-- A request carrying a remote image reference. -/
def reqC4 : ChatRequest :=
  { baseReq with
    message := "describe this"
    imageUrl := some "http://img.example/x.png" }

/-- Environment at time 1000 with a working LLaMA key. -/
def envC5 : Env :=
  { baseEnv with
    now := 1000
    llamaKey := true
    llamaApi := LlamaApiOutcome.ok (some "never reached") }

/-- State whose breaker tripped at time 0 (still inside the cooldown). -/
def stC5 : PipeState :=
  { baseState with
    breaker := { rateLimitHit := true, rateLimitHitTime := some 0 } }

/-- Environment at time 400000 whose LLaMA call would succeed. -/
def envC6 : Env :=
  { baseEnv with
    now := 400000
    llamaKey := true
    llamaApi := LlamaApiOutcome.ok (some "fresh answer") }

/-- Breaker tripped at time 50000 (cooldown over at 350000). -/
def brC6 : Breaker := { rateLimitHit := true, rateLimitHitTime := some 50000 }

/-- Environment whose base64 payloads decode to 2 MiB. -/
def envC9 : Env := { baseEnv with decodedLen := fun _ => 2097152 }

/-- An oversized inline image declared with an unsupported media type. -/
def reqC9 : ChatRequest :=
  { baseReq with
    message := "total this receipt"
    imageBase64 := some "AAAA"
    imageMimeType := some "image/gif" }

/-- The same oversized inline image declared as PNG. -/
def reqC9b : ChatRequest := { reqC9 with imageMimeType := some "image/png" }

/-- State with a full text window for the client (used by the frame-effect
witness). -/
def stC10 : PipeState :=
  { baseState with
    userRequests := [("1.2.3.4", [99998, 99996, 99994, 99992, 99990])] }

/-! Helper lemmas about the modelled `Map` operations. -/

theorem getTs_setTs (m : ReqMap) (ip c : String) (v : List Nat) :
    getTs (setTs m ip v) c = if ip == c then v else getTs m c := by
  induction m with
  | nil => simp [setTs, getTs]
  | cons hd tl ih =>
      obtain ⟨k, w⟩ := hd
      by_cases hk : k = ip
      · subst hk
        by_cases hkc : k = c <;> simp [setTs, getTs, hkc]
      · have hk' : (k == ip) = false := by simp [hk]
        by_cases hc : k = c
        · subst hc
          have hip : (ip == k) = false := by
            simp only [beq_eq_false_iff_ne]
            exact fun h => hk h.symm
          simp [setTs, getTs, hk', hip]
        · have hc' : (k == c) = false := by simp [hc]
          simp [setTs, getTs, hk', hc', ih]

theorem getTs_of_hasKey_false (m : ReqMap) (ip : String)
    (h : hasKey m ip = false) : getTs m ip = [] := by
  induction m with
  | nil => rfl
  | cons hd tl ih =>
      obtain ⟨k, w⟩ := hd
      simp only [hasKey, Bool.or_eq_false_iff] at h
      simp [getTs, h.1, ih h.2]

theorem getTs_touch (m : ReqMap) (ip c : String) :
    getTs (touch m ip) c = getTs m c := by
  unfold touch
  by_cases h : hasKey m ip
  · simp [h]
  · simp only [h, Bool.false_eq_true, if_false, getTs_setTs]
    by_cases hc : ip = c
    · subst hc
      simp [getTs_of_hasKey_false m ip (by simpa using h)]
    · simp [hc]

theorem getTs_updateRateLimit (now interval : Nat) (m : ReqMap) (ip c : String) :
    getTs (updateRateLimit now interval m ip) c =
      if ip == c then
        ((getTs m ip) ++ [now]).filter (fun ts => decide (now - ts < interval))
      else getTs m c := by
  unfold updateRateLimit
  rw [getTs_setTs]
  by_cases hc : ip = c
  · subst hc
    simp [getTs_touch]
  · simp [hc, getTs_touch]

theorem getTs_updateImageRateLimit (now interval : Nat) (m : ReqMap) (ip c : String) :
    getTs (updateImageRateLimit now interval m ip) c =
      if ip == c then
        ((getTs m ip) ++ [now]).filter (fun ts => decide (now - ts < interval))
      else getTs m c := by
  unfold updateImageRateLimit
  rw [getTs_setTs]
  by_cases hc : ip = c
  · subst hc
    simp [getTs_touch]
  · simp [hc, getTs_touch]

theorem truthy_getD (o : Option String) (h : truthy o = true) : o.getD "" ≠ "" := by
  cases o with
  | none => simp [truthy] at h
  | some s =>
      simp only [truthy, Bool.not_eq_eq_eq_not, Bool.not_true, beq_eq_false_iff_ne] at h
      simpa using h

theorem append_ne_empty_left (s t : String) (h : 0 < s.length) : s ++ t ≠ "" := by
  intro heq
  have hlen := congrArg String.length heq
  rw [String.length_append] at hlen
  simp only [String.length_empty] at hlen
  omega

/-- Claim C2: A text-class request (non-empty message) is admitted iff the
number of recorded text-class events for its client with timestamps
strictly inside the trailing window is strictly less than the text limit;
when the window already holds at least the limit, the request is denied
with the canned rate-limit reply regardless of the message's content; and
the admission check itself changes no client's recorded timestamps. -/
theorem c2_text_admission (env : Env) (st : PipeState) (req : ChatRequest)
    (hmsg : req.message ≠ "") :
    ((isRateLimited env.now env.textRateLimit env.textRateInterval
        st.userRequests req.ip).1 = false ↔
      ((getTs st.userRequests req.ip).filter
        (fun ts => decide (env.now - ts < env.textRateInterval))).length
        < env.textRateLimit) ∧
    ((isRateLimited env.now env.textRateLimit env.textRateInterval
        st.userRequests req.ip).1 = true →
      (processChat env st req).reply = "Too many requests. Please slow down.") ∧
    (∀ c, getTs (isRateLimited env.now env.textRateLimit env.textRateInterval
        st.userRequests req.ip).2 c = getTs st.userRequests c) := by
  refine ⟨?_, ?_, ?_⟩
  · simp only [isRateLimited, getTs_touch, decide_eq_false_iff_not, Nat.not_le]
  · intro h
    have hb : (req.message == "") = false := beq_eq_false_iff_ne.mpr hmsg
    simp only [processChat, hb, Bool.false_eq_true, if_false, h, if_true]
  · intro c
    simp only [isRateLimited, getTs_touch]

/-- Witness for claim C2: A client with five events in the last minute: the sixth
request is denied with the canned reply and nothing is recorded. -/
theorem c2_witness :
    baseReq.message ≠ "" ∧
    (((isRateLimited baseEnv.now baseEnv.textRateLimit baseEnv.textRateInterval
        stC2.userRequests baseReq.ip).1 = false ↔
      ((getTs stC2.userRequests baseReq.ip).filter
        (fun ts => decide (baseEnv.now - ts < baseEnv.textRateInterval))).length
        < baseEnv.textRateLimit) ∧
    ((isRateLimited baseEnv.now baseEnv.textRateLimit baseEnv.textRateInterval
        stC2.userRequests baseReq.ip).1 = true →
      (processChat baseEnv stC2 baseReq).reply = "Too many requests. Please slow down.") ∧
    (∀ c, getTs (isRateLimited baseEnv.now baseEnv.textRateLimit baseEnv.textRateInterval
        stC2.userRequests baseReq.ip).2 c = getTs stC2.userRequests c)) :=
  ⟨by decide, c2_text_admission baseEnv stC2 baseReq (by decide)⟩

/-- Claim C6: After the text provider reports overload at time `t`, the
breaker check inside `callLLaMA` denies the call (canned reply, API not
reached, state unchanged) at every instant with `now - t` below the
5-minute cooldown; at the first call past the cooldown it proceeds to the
API, and unless that very call reports overload again the trip is cleared
— all without external intervention. -/
theorem c6_breaker_cooldown (env : Env) (breaker : Breaker) (t : Nat) (prompt : String)
    (hkey : env.llamaKey = true) (htrip : breaker.rateLimitHit = true)
    (htime : breaker.rateLimitHitTime = some t) :
    (env.now - t < COOLDOWN_MS →
      callLLaMA env breaker prompt =
        { answer := some limitedMsg, breaker := breaker, apiCalled := false }) ∧
    (COOLDOWN_MS ≤ env.now - t →
      (callLLaMA env breaker prompt).apiCalled = true ∧
      (env.llamaApi ≠ LlamaApiOutcome.overload →
        (callLLaMA env breaker prompt).breaker.rateLimitHit = false)) := by
  constructor
  · intro h
    simp [callLLaMA, hkey, htrip, htime, h]
  · intro h
    have h' : ¬(env.now - t < COOLDOWN_MS) := by omega
    cases hapi : env.llamaApi <;>
      simp [callLLaMA, hkey, htrip, htime, h', hapi]

/-- Witness for claim C6: A breaker tripped at 50000 consulted at 400000: past
the cooldown, the API is reached and the trip is cleared. -/
theorem c6_witness :
    envC6.llamaKey = true ∧ brC6.rateLimitHit = true ∧
    brC6.rateLimitHitTime = some 50000 ∧
    ((envC6.now - 50000 < COOLDOWN_MS →
      callLLaMA envC6 brC6 "q" =
        { answer := some limitedMsg, breaker := brC6, apiCalled := false }) ∧
    (COOLDOWN_MS ≤ envC6.now - 50000 →
      (callLLaMA envC6 brC6 "q").apiCalled = true ∧
      (envC6.llamaApi ≠ LlamaApiOutcome.overload →
        (callLLaMA envC6 brC6 "q").breaker.rateLimitHit = false))) :=
  ⟨rfl, rfl, rfl, c6_breaker_cooldown envC6 brC6 50000 "q" rfl rfl rfl⟩

/-- Counterexample for claim C3: A request whose message matches the FAQ exactly
(score 1.0, threshold 0.6) but which carries an image while its client has
three image events in the window: the pipeline answers with the image
rate-limit denial, not the knowledge answer — image-class admission runs
before the knowledge lookup, contradicting the claim. -/
theorem c3_cx :
    checkFAQ envC3.faqLoaded envC3.faq envC3.faqThreshold reqC3.message
      = some "9am-6pm Mon-Sat" ∧
    (processChat envC3 stC3 reqC3).reply = "Too many image requests. Please slow down." ∧
    "Too many image requests. Please slow down." ≠ "9am-6pm Mon-Sat" := by
  decide

/-- Amended claim C3: Image-class admission is checked at the top of the
handler, right after text-class admission and before the knowledge lookup:
whenever an image reference is present and the client is at or above the
image limit, the reply is the canned image rate-limit denial regardless of
whether the message matches the knowledge base. -/
theorem c3_image_check_first (env : Env) (st : PipeState) (req : ChatRequest)
    (hmsg : req.message ≠ "")
    (ht : (isRateLimited env.now env.textRateLimit env.textRateInterval
        st.userRequests req.ip).1 = false)
    (hi : imgPresent req = true)
    (hd : (isImageRateLimited env.now env.imageRateLimit env.imageRateInterval
        st.userImageRequests req.ip).1 = true) :
    (processChat env st req).reply = "Too many image requests. Please slow down." := by
  have hb : (req.message == "") = false := beq_eq_false_iff_ne.mpr hmsg
  simp only [processChat, hb, Bool.false_eq_true, if_false, ht, hi, if_true, hd]

/-- Witness for claim C3: The amended theorem at the counterexample's input. -/
theorem c3_witness :
    reqC3.message ≠ "" ∧
    (isRateLimited envC3.now envC3.textRateLimit envC3.textRateInterval
      stC3.userRequests reqC3.ip).1 = false ∧
    imgPresent reqC3 = true ∧
    (isImageRateLimited envC3.now envC3.imageRateLimit envC3.imageRateInterval
      stC3.userImageRequests reqC3.ip).1 = true ∧
    (processChat envC3 stC3 reqC3).reply = "Too many image requests. Please slow down." :=
  ⟨by decide, by decide, by decide, by decide,
    c3_image_check_first envC3 stC3 reqC3 (by decide) (by decide) (by decide) (by decide)⟩

/-- Counterexample for claim C4: A valid http image URL whose fetch fails: the
pipeline does not emit any fetch-failure message and does not stop — it
falls through to the text stage and replies with the text provider's
answer, contradicting the claim that image errors are terminal. -/
theorem c4_cx :
    (processChat envC4 baseState reqC4).reply = "llama answer" ∧
    (processChat envC4 baseState reqC4).llamaFnCalled = true ∧
    (processChat envC4 baseState reqC4).geminiApiCalled = false := by
  decide

/-- Amended claim C4: When a request with a remote image reference passes
admission and endpoint validation but the image fetch does not complete
successfully, `callGemini` returns no answer (no fetch-failure reply
exists) and the pipeline falls through to the text stage. -/
theorem c4_fetch_fail_falls_through (env : Env) (st : PipeState) (req : ChatRequest)
    (hmsg : req.message ≠ "")
    (ht : (isRateLimited env.now env.textRateLimit env.textRateInterval
        st.userRequests req.ip).1 = false)
    (hi2 : (isImageRateLimited env.now env.imageRateLimit env.imageRateInterval
        st.userImageRequests req.ip).1 = false)
    (hfaq : truthy (checkFAQ env.faqLoaded env.faq env.faqThreshold req.message) = false)
    (hurl : truthy req.imageUrl = true)
    (hmime : allowedTypes.contains (resolvedMime req) = true)
    (hsize : (truthy req.imageBase64 &&
        exceedsCap (env.decodedLen (req.imageBase64.getD ""))) = false)
    (hval : urlRejection env req = none)
    (hkey : env.geminiKey = true)
    (hfetch : env.geminiFetch = FetchOutcome.fail) :
    (processChat env st req).llamaFnCalled = true ∧
    (processChat env st req).geminiApiCalled = false := by
  have hb : (req.message == "") = false := beq_eq_false_iff_ne.mpr hmsg
  have hp : imgPresent req = true := by
    simp [imgPresent, hurl]
  have he : imageBlockEntered req = true := by
    simp [imageBlockEntered, hurl]
  have hg : callGemini env req.message req.imageUrl req.imageBase64 (resolvedMime req)
      = { answer := none, apiCalled := false } := by
    simp [callGemini, hkey, hurl, hfetch, hsize]
  have htn : truthy none = false := rfl
  simp only [processChat, hb, Bool.false_eq_true, if_false, ht, hp, if_true, hi2,
    hfaq, he, imageStage, hmime, Bool.not_true, hsize, hval, hg, htn, textStage]
  refine ⟨?_, ?_⟩ <;> split <;> rfl

/-- Witness for claim C4: The amended theorem at the counterexample's input. -/
theorem c4_witness :
    reqC4.message ≠ "" ∧
    truthy reqC4.imageUrl = true ∧
    envC4.geminiFetch = FetchOutcome.fail ∧
    (processChat envC4 baseState reqC4).llamaFnCalled = true ∧
    (processChat envC4 baseState reqC4).geminiApiCalled = false :=
  ⟨by decide, by decide, by decide,
    (c4_fetch_fail_falls_through envC4 baseState reqC4 (by decide) (by decide)
      (by decide) (by decide) (by decide) (by decide) (by decide) (by decide)
      (by decide) (by decide)).1,
    (c4_fetch_fail_falls_through envC4 baseState reqC4 (by decide) (by decide)
      (by decide) (by decide) (by decide) (by decide) (by decide) (by decide)
      (by decide) (by decide)).2⟩

/-- Counterexample for claim C5: Breaker tripped at time 0, consulted at time
1000 (inside the cooldown): the final reply is the canned
degraded-service message — not the static apology — and a text-class
event IS recorded for the request, contradicting both halves of the
claim. -/
theorem c5_cx :
    (processChat envC5 stC5 baseReq).reply = limitedMsg ∧
    (processChat envC5 stC5 baseReq).reply ≠
      "Sorry, I cannot answer that right now. Please try again later." ∧
    getTs stC5.userRequests baseReq.ip = [] ∧
    getTs (processChat envC5 stC5 baseReq).state.userRequests baseReq.ip = [1000] := by
  decide

/-- Amended claim C5: Whenever the text stage is reached — directly for a
request with no image fields, or by falling through from the image block
after its validations pass and the vision call yields no truthy answer —
and the breaker denies the call (tripped and inside the cooldown) or the
provider reports overload (whether the breaker was untripped or had just
cleared after its cooldown), `callLLaMA` returns the canned
degraded-service message, which the handler treats as a normal answer: it
is the final reply (the static apology is not used) and a text-class
event is recorded via `updateRateLimit`. -/
theorem c5_breaker_reply_recorded (env : Env) (st : PipeState) (req : ChatRequest)
    (hmsg : req.message ≠ "")
    (ht : (isRateLimited env.now env.textRateLimit env.textRateInterval
        st.userRequests req.ip).1 = false)
    (hi2 : imgPresent req = true →
      (isImageRateLimited env.now env.imageRateLimit env.imageRateInterval
        st.userImageRequests req.ip).1 = false)
    (hfaq : truthy (checkFAQ env.faqLoaded env.faq env.faqThreshold req.message) = false)
    (hstage : imageBlockEntered req = false ∨
      (allowedTypes.contains (resolvedMime req) = true ∧
        (truthy req.imageBase64 &&
          exceedsCap (env.decodedLen (req.imageBase64.getD ""))) = false ∧
        urlRejection env req = none ∧
        truthy (callGemini env req.message req.imageUrl req.imageBase64
          (resolvedMime req)).answer = false))
    (hkey : env.llamaKey = true)
    (hden : (st.breaker.rateLimitHit = true ∧
        env.now - st.breaker.rateLimitHitTime.getD 0 < COOLDOWN_MS) ∨
      env.llamaApi = LlamaApiOutcome.overload) :
    (processChat env st req).reply = limitedMsg ∧
    getTs (processChat env st req).state.userRequests req.ip =
      ((getTs st.userRequests req.ip) ++ [env.now]).filter
        (fun ts => decide (env.now - ts < env.textRateInterval)) := by
  have hb : (req.message == "") = false := beq_eq_false_iff_ne.mpr hmsg
  have hl : (callLLaMA env st.breaker req.message).answer = some limitedMsg := by
    rcases hden with ⟨h1, h2⟩ | hov
    · simp [callLLaMA, hkey, h1, h2]
    · by_cases h1 : st.breaker.rateLimitHit = true
      · by_cases h2 : env.now - st.breaker.rateLimitHitTime.getD 0 < COOLDOWN_MS
        · simp [callLLaMA, hkey, h1, h2]
        · simp [callLLaMA, hkey, h1, h2, hov]
      · have h1f : st.breaker.rateLimitHit = false := by simpa using h1
        simp [callLLaMA, hkey, h1f, hov]
  have htr : truthy (some limitedMsg) = true := by decide
  have hr2 : (if imgPresent req = true then
      isImageRateLimited env.now env.imageRateLimit env.imageRateInterval
        st.userImageRequests req.ip
    else (false, st.userImageRequests)).1 = false := by
    by_cases hip : imgPresent req = true
    · simp [hip, hi2 hip]
    · simp [hip]
  by_cases hbe : imageBlockEntered req = true
  · rcases hstage with he | ⟨hmime, hsize, hurl, hgem⟩
    · rw [he] at hbe
      cases hbe
    · simp only [processChat, hb, Bool.false_eq_true, if_false, ht, hr2, hfaq,
        hbe, if_true, imageStage, hmime, Bool.not_true, hsize, hurl, hgem,
        textStage, hl, htr, Option.getD_some]
      refine ⟨trivial, ?_⟩
      rw [getTs_updateRateLimit]
      simp only [beq_self_eq_true, if_true, isRateLimited, getTs_touch]
  · have hbe2 : imageBlockEntered req = false := by simpa using hbe
    simp only [processChat, hb, Bool.false_eq_true, if_false, ht, hr2, hfaq,
      hbe2, if_true, textStage, hl, htr, Option.getD_some]
    refine ⟨trivial, ?_⟩
    rw [getTs_updateRateLimit]
    simp only [beq_self_eq_true, if_true, isRateLimited, getTs_touch]

/-- Witness for claim C5: The amended theorem at the counterexample's input. -/
theorem c5_witness :
    baseReq.message ≠ "" ∧
    envC5.llamaKey = true ∧
    stC5.breaker.rateLimitHit = true ∧
    envC5.now - stC5.breaker.rateLimitHitTime.getD 0 < COOLDOWN_MS ∧
    ((processChat envC5 stC5 baseReq).reply = limitedMsg ∧
      getTs (processChat envC5 stC5 baseReq).state.userRequests baseReq.ip =
        ((getTs stC5.userRequests baseReq.ip) ++ [envC5.now]).filter
          (fun ts => decide (envC5.now - ts < envC5.textRateInterval))) :=
  ⟨by decide, by decide, by decide, by decide,
    c5_breaker_reply_recorded envC5 stC5 baseReq (by decide) (by decide) (by decide)
      (by decide) (Or.inl (by decide)) (by decide)
      (Or.inl ⟨by decide, by decide⟩)⟩

/-- Counterexample for claim C9: An inline image decoding to 2 MiB but declared
as `image/gif`: the pipeline replies with the unsupported-type message
(the type check precedes the size check), not the size-error message the
claim requires — though the image is still never forwarded. -/
theorem c9_cx :
    truthy reqC9.imageBase64 = true ∧
    exceedsCap (envC9.decodedLen (reqC9.imageBase64.getD "")) = true ∧
    (processChat envC9 baseState reqC9).reply =
      "Unsupported image type: image/gif. Please upload JPEG, PNG, or WebP." ∧
    (processChat envC9 baseState reqC9).reply ≠
      sizeErrorReply (envC9.decodedLen (reqC9.imageBase64.getD "")) := by
  decide

/-- Amended claim C9: An inline image whose decoded size exceeds the
1.2 MB cap is never forwarded to either provider; the size-error reply is
produced provided the request is admitted, its non-empty message finds no
knowledge match, and its declared media type is allowed (otherwise the
earlier check's reply wins). -/
theorem c9_oversize_inline (env : Env) (st : PipeState) (req : ChatRequest)
    (hb64 : truthy req.imageBase64 = true)
    (hcap : exceedsCap (env.decodedLen (req.imageBase64.getD "")) = true) :
    (processChat env st req).geminiApiCalled = false ∧
    (processChat env st req).llamaApiCalled = false ∧
    (req.message ≠ "" →
      (isRateLimited env.now env.textRateLimit env.textRateInterval
        st.userRequests req.ip).1 = false →
      (isImageRateLimited env.now env.imageRateLimit env.imageRateInterval
        st.userImageRequests req.ip).1 = false →
      truthy (checkFAQ env.faqLoaded env.faq env.faqThreshold req.message) = false →
      allowedTypes.contains (resolvedMime req) = true →
      (processChat env st req).reply =
        sizeErrorReply (env.decodedLen (req.imageBase64.getD ""))) := by
  have himg : imgPresent req = true := by simp [imgPresent, hb64]
  have he : imageBlockEntered req = true := by simp [imageBlockEntered, hb64]
  have hsz : (truthy req.imageBase64 &&
      exceedsCap (env.decodedLen (req.imageBase64.getD ""))) = true := by
    simp [hb64, hcap]
  refine ⟨?_, ?_, ?_⟩
  · simp only [processChat, himg, he, imageStage, hsz, if_true]
    repeat first
      | rfl
      | split
  · simp only [processChat, himg, he, imageStage, hsz, if_true]
    repeat first
      | rfl
      | split
  · intro h1 h2 h3 h4 h5
    have hb : (req.message == "") = false := beq_eq_false_iff_ne.mpr h1
    simp only [processChat, hb, Bool.false_eq_true, if_false, h2, himg, if_true,
      h3, h4, he, imageStage, h5, Bool.not_true, hsz]

/-- Witness for claim C9: The amended theorem at a 2 MiB inline PNG: the reply
is the size-error message and no provider API is reached. -/
theorem c9_witness :
    truthy reqC9b.imageBase64 = true ∧
    exceedsCap (envC9.decodedLen (reqC9b.imageBase64.getD "")) = true ∧
    ((processChat envC9 baseState reqC9b).geminiApiCalled = false ∧
      (processChat envC9 baseState reqC9b).llamaApiCalled = false ∧
      (reqC9b.message ≠ "" →
        (isRateLimited envC9.now envC9.textRateLimit envC9.textRateInterval
          baseState.userRequests reqC9b.ip).1 = false →
        (isImageRateLimited envC9.now envC9.imageRateLimit envC9.imageRateInterval
          baseState.userImageRequests reqC9b.ip).1 = false →
        truthy (checkFAQ envC9.faqLoaded envC9.faq envC9.faqThreshold reqC9b.message) = false →
        allowedTypes.contains (resolvedMime reqC9b) = true →
        (processChat envC9 baseState reqC9b).reply =
          sizeErrorReply (envC9.decodedLen (reqC9b.imageBase64.getD "")))) :=
  ⟨by decide, by decide, c9_oversize_inline envC9 baseState reqC9b (by decide) (by decide)⟩

/-- Claim C10: On every request terminated by a rate-limit denial (text or
image class) or by the endpoint's image validation (unsupported media
type, oversized inline payload, or invalid / non-http(s) URL), no
timestamp is appended to either traffic class's window: every client's
recorded timestamp list is unchanged (the admission checks insert at most
an empty list for a previously unseen client, which is invisible to
`getTs`). -/
theorem c10_no_recording (env : Env) (st : PipeState) (req : ChatRequest)
    (hmsg : req.message ≠ "")
    (hterm :
      (isRateLimited env.now env.textRateLimit env.textRateInterval
          st.userRequests req.ip).1 = true ∨
      ((isRateLimited env.now env.textRateLimit env.textRateInterval
          st.userRequests req.ip).1 = false ∧
        imgPresent req = true ∧
        (isImageRateLimited env.now env.imageRateLimit env.imageRateInterval
          st.userImageRequests req.ip).1 = true) ∨
      ((isRateLimited env.now env.textRateLimit env.textRateInterval
          st.userRequests req.ip).1 = false ∧
        (imgPresent req = true →
          (isImageRateLimited env.now env.imageRateLimit env.imageRateInterval
            st.userImageRequests req.ip).1 = false) ∧
        truthy (checkFAQ env.faqLoaded env.faq env.faqThreshold req.message) = false ∧
        imageBlockEntered req = true ∧
        (allowedTypes.contains (resolvedMime req) = false ∨
          (truthy req.imageBase64 &&
            exceedsCap (env.decodedLen (req.imageBase64.getD ""))) = true ∨
          (urlRejection env req).isSome = true))) :
    (∀ c, getTs (processChat env st req).state.userRequests c
        = getTs st.userRequests c) ∧
    (∀ c, getTs (processChat env st req).state.userImageRequests c
        = getTs st.userImageRequests c) := by
  have hb : (req.message == "") = false := beq_eq_false_iff_ne.mpr hmsg
  rcases hterm with hT | ⟨hT, hP, hI⟩ | ⟨hT, hIp, hF, hE, hV⟩
  · simp only [processChat, hb, Bool.false_eq_true, if_false, hT, if_true]
    constructor <;>
          first
            | trivial
            | (intro c; simp [isRateLimited, isImageRateLimited, getTs_touch])
  · simp only [processChat, hb, Bool.false_eq_true, if_false, hT, hP, if_true, hI]
    constructor <;>
          first
            | trivial
            | (intro c; simp [isRateLimited, isImageRateLimited, getTs_touch])
  · by_cases hP : imgPresent req = true
    · have hI := hIp hP
      simp only [processChat, hb, Bool.false_eq_true, if_false, hT, hP, if_true,
        hI, hF, hE, imageStage]
      rcases hM : allowedTypes.contains (resolvedMime req) with _ | _
      · simp only [hM, Bool.not_false, if_true]
        constructor <;>
          first
            | trivial
            | (intro c; simp [isRateLimited, isImageRateLimited, getTs_touch])
      · simp only [hM, Bool.not_true, Bool.false_eq_true, if_false]
        rcases hS : (truthy req.imageBase64 &&
            exceedsCap (env.decodedLen (req.imageBase64.getD ""))) with _ | _
        · simp only [hS, Bool.false_eq_true, if_false]
          have hU : (urlRejection env req).isSome = true := by
            rcases hV with h | h | h
            · rw [hM] at h; cases h
            · rw [hS] at h; cases h
            · exact h
          obtain ⟨msg, hmsg2⟩ := Option.isSome_iff_exists.mp hU
          simp only [hmsg2]
          constructor <;>
          first
            | trivial
            | (intro c; simp [isRateLimited, isImageRateLimited, getTs_touch])
        · simp only [hS, if_true]
          constructor <;>
          first
            | trivial
            | (intro c; simp [isRateLimited, isImageRateLimited, getTs_touch])
    · have hP2 : imgPresent req = false := by simpa using hP
      simp only [processChat, hb, Bool.false_eq_true, if_false, hT, hP2, if_false,
        hF, hE, imageStage]
      rcases hM : allowedTypes.contains (resolvedMime req) with _ | _
      · simp only [hM, Bool.not_false, if_true]
        constructor <;>
          first
            | trivial
            | (intro c; simp [isRateLimited, isImageRateLimited, getTs_touch])
      · simp only [hM, Bool.not_true, Bool.false_eq_true, if_false]
        rcases hS : (truthy req.imageBase64 &&
            exceedsCap (env.decodedLen (req.imageBase64.getD ""))) with _ | _
        · simp only [hS, Bool.false_eq_true, if_false]
          have hU : (urlRejection env req).isSome = true := by
            rcases hV with h | h | h
            · rw [hM] at h; cases h
            · rw [hS] at h; cases h
            · exact h
          obtain ⟨msg, hmsg2⟩ := Option.isSome_iff_exists.mp hU
          simp only [hmsg2]
          constructor <;>
          first
            | trivial
            | (intro c; simp [isRateLimited, isImageRateLimited, getTs_touch])
        · simp only [hS, if_true]
          constructor <;>
          first
            | trivial
            | (intro c; simp [isRateLimited, isImageRateLimited, getTs_touch])

/-- Witness for claim C10: A rate-limited sixth request: the reply path changes
no recorded timestamps for any client. -/
theorem c10_witness :
    baseReq.message ≠ "" ∧
    (isRateLimited baseEnv.now baseEnv.textRateLimit baseEnv.textRateInterval
      stC10.userRequests baseReq.ip).1 = true ∧
    ((∀ c, getTs (processChat baseEnv stC10 baseReq).state.userRequests c
        = getTs stC10.userRequests c) ∧
     (∀ c, getTs (processChat baseEnv stC10 baseReq).state.userImageRequests c
        = getTs stC10.userImageRequests c)) :=
  ⟨by decide, by decide,
    c10_no_recording baseEnv stC10 baseReq (by decide) (Or.inl (by decide))⟩

theorem unsupportedMsg_ne (m : String) : unsupportedMsg m ≠ "" := by
  unfold unsupportedMsg
  apply append_ne_empty_left
  rw [String.length_append]
  have h : 0 < ("Unsupported image type: " : String).length := by decide
  omega

theorem sizeErrorReply_ne (n : Nat) : sizeErrorReply n ≠ "" := by
  unfold sizeErrorReply
  apply append_ne_empty_left
  rw [String.length_append]
  have h : 0 < ("Image too large (" : String).length := by decide
  omega

theorem urlRejection_reply_ne (env : Env) (req : ChatRequest) (msg : String)
    (h : urlRejection env req = some msg) : msg ≠ "" := by
  unfold urlRejection at h
  split at h
  · split at h
    · rw [Option.some_inj] at h
      subst h
      decide
    · split at h
      · rw [Option.some_inj] at h
        subst h
        decide
      · cases h
  · cases h

theorem textStage_reply_ne (env : Env) (st : PipeState) (req : ChatRequest)
    (g : Bool) : (textStage env st req g).reply ≠ "" := by
  simp only [textStage]
  split
  · next h => exact truthy_getD _ h
  · exact (by decide :
      ("Sorry, I cannot answer that right now. Please try again later." : String) ≠ "")

theorem imageStage_reply_ne (env : Env) (st : PipeState) (req : ChatRequest) :
    (imageStage env st req).reply ≠ "" := by
  simp only [imageStage]
  split
  · exact unsupportedMsg_ne _
  · split
    · exact sizeErrorReply_ne _
    · split
      · next msg h => exact urlRejection_reply_ne env req msg h
      · split
        · next h => exact truthy_getD _ h
        · exact textStage_reply_ne env st req _

/-- Claim C1: For every inbound chat request — any message, any combination
of image URL / inline data / declared media type, any FAQ table, and any
provider outcome (network failure, overload, empty answer) — the pipeline
terminates (it is a total function) and produces a reply holding a
non-empty string; no failure escapes as anything but a reply. -/
theorem c1_total_nonempty_reply (env : Env) (st : PipeState) (req : ChatRequest) :
    (processChat env st req).reply ≠ "" := by
  simp only [processChat]
  repeat' split
  all_goals
    first
    | exact (by decide : ("No message received." : String) ≠ "")
    | exact (by decide : ("Too many requests. Please slow down." : String) ≠ "")
    | exact (by decide : ("Too many image requests. Please slow down." : String) ≠ "")
    | (next h => exact truthy_getD _ h)
    | exact imageStage_reply_ne _ _ _
    | exact textStage_reply_ne _ _ _ _

theorem bestAux_ge (rest : List ℚ) (bv : ℚ) (i bi : Nat) :
    bv ≤ (bestAux rest bv i bi).1 := by
  induction rest generalizing bv i bi with
  | nil => simp [bestAux]
  | cons r tail ih =>
      simp only [bestAux]
      split
      · next h => exact le_trans (le_of_lt h) (ih r (i + 1) i)
      · exact ih bv (i + 1) bi

theorem bestAux_upper (rest : List ℚ) (bv : ℚ) (i bi : Nat) :
    ∀ j vj, rest.get? j = some vj → vj ≤ (bestAux rest bv i bi).1 := by
  induction rest generalizing bv i bi with
  | nil => intro j vj h; rw [List.get?_nil] at h; cases h
  | cons r tail ih =>
      intro j vj h
      cases j with
      | zero =>
          rw [List.get?_cons_zero, Option.some_inj] at h
          subst h
          simp only [bestAux]
          split


          · exact bestAux_ge tail r (i + 1) i
          · next hle => exact le_trans (le_of_not_lt hle) (bestAux_ge tail bv (i + 1) bi)
      | succ j2 =>
          rw [List.get?_cons_succ] at h
          simp only [bestAux]
          split
          · exact ih r (i + 1) i j2 vj h
          · exact ih bv (i + 1) bi j2 vj h

theorem bestAux_pos (rest : List ℚ) (bv : ℚ) (i bi : Nat) :
    ((bestAux rest bv i bi).1 = bv ∧ (bestAux rest bv i bi).2 = bi) ∨
    (∃ j, rest.get? j = some (bestAux rest bv i bi).1 ∧
      (bestAux rest bv i bi).2 = i + j ∧ bv < (bestAux rest bv i bi).1 ∧
      ∀ k vk, k < j → rest.get? k = some vk → vk < (bestAux rest bv i bi).1) := by
  induction rest generalizing bv i bi with
  | nil => left; simp [bestAux]
  | cons r tail ih =>
      simp only [bestAux]
      split
      · next hlt =>
          rcases ih r (i + 1) i with ⟨h1, h2⟩ | ⟨j, hj1, hj2, hj3, hj4⟩
          · right
            refine ⟨0, ?_, ?_, ?_, ?_⟩
            · rw [List.get?_cons_zero, h1]
            · rw [h2]; omega
            · rw [h1]; exact hlt
            · intro k vk hk _; omega
          · right
            refine ⟨j + 1, ?_, ?_, ?_, ?_⟩
            · rw [List.get?_cons_succ]; exact hj1
            · rw [hj2]; omega
            · exact lt_trans hlt hj3
            · intro k vk hk hkv
              cases k with
              | zero =>
                  rw [List.get?_cons_zero, Option.some_inj] at hkv
                  subst hkv
                  exact hj3
              | succ k2 =>
                  rw [List.get?_cons_succ] at hkv
                  exact hj4 k2 vk (by omega) hkv
      · next hnlt =>
          rcases ih bv (i + 1) bi with ⟨h1, h2⟩ | ⟨j, hj1, hj2, hj3, hj4⟩
          · left; exact ⟨h1, h2⟩
          · right
            refine ⟨j + 1, ?_, ?_, ?_, ?_⟩
            · rw [List.get?_cons_succ]; exact hj1
            · rw [hj2]; omega
            · exact hj3
            · intro k vk hk hkv
              cases k with
              | zero =>
                  rw [List.get?_cons_zero, Option.some_inj] at hkv
                  subst hkv
                  exact lt_of_le_of_lt (le_of_not_lt hnlt) hj3
              | succ k2 =>
                  rw [List.get?_cons_succ] at hkv
                  exact hj4 k2 vk (by omega) hkv

theorem findBestPair_spec (r : ℚ) (rest : List ℚ) :
    (r :: rest).get? (findBestPair (r :: rest)).2 = some (findBestPair (r :: rest)).1 ∧
    (∀ j vj, (r :: rest).get? j = some vj → vj ≤ (findBestPair (r :: rest)).1) ∧
    (∀ j vj, j < (findBestPair (r :: rest)).2 → (r :: rest).get? j = some vj →
      vj < (findBestPair (r :: rest)).1) := by
  simp only [findBestPair]
  refine ⟨?_, ?_, ?_⟩
  · rcases bestAux_pos rest r 1 0 with ⟨h1, h2⟩ | ⟨j, hj1, hj2, hj3, hj4⟩
    · rw [h2, List.get?_cons_zero, h1]
    · rw [hj2]
      have hji : 1 + j = j + 1 := by omega
      rw [hji, List.get?_cons_succ]
      exact hj1
  · intro j vj h
    cases j with
    | zero =>
        rw [List.get?_cons_zero, Option.some_inj] at h
        subst h
        exact bestAux_ge rest r 1 0
    | succ j2 =>
        rw [List.get?_cons_succ] at h
        exact bestAux_upper rest r 1 0 j2 vj h
  · intro j vj hj h
    rcases bestAux_pos rest r 1 0 with ⟨h1, h2⟩ | ⟨j2, hj1, hj2, hj3, hj4⟩
    · rw [h2] at hj; omega
    · rw [hj2] at hj
      cases j with
      | zero =>
          rw [List.get?_cons_zero, Option.some_inj] at h
          subst h
          exact hj3
      | succ j3 =>
          rw [List.get?_cons_succ] at h
          exact hj4 j3 vj (by omega) h

theorem bigramList_length (l : List Char) : (bigramList l).length = l.length - 1 := by
  induction l with
  | nil => rfl
  | cons a tail ih =>
      cases tail with
      | nil => rfl
      | cons b rest =>
          simp only [bigramList, List.length_cons] at ih ⊢
          omega

theorem interCard_le_right (a b : List (Char × Char)) : interCard a b ≤ b.length := by
  induction b generalizing a with
  | nil => simp [interCard]
  | cons x tail ih =>
      simp only [interCard, List.length_cons]
      split
      · have h := ih (a.erase x); omega
      · have h := ih a; omega

theorem interCard_le_left (a b : List (Char × Char)) : interCard a b ≤ a.length := by
  induction b generalizing a with
  | nil => simp [interCard]
  | cons x tail ih =>
      simp only [interCard]
      split
      · next hmem =>
          have h1 := ih (a.erase x)
          have h2 : (a.erase x).length = a.length - 1 := List.length_erase_of_mem hmem
          have h3 : 0 < a.length := List.length_pos.mpr (List.ne_nil_of_mem hmem)
          omega
      · exact ih a

theorem compare_le_one (a b : List Char) : compareTwoStrings a b ≤ 1 := by
  unfold compareTwoStrings
  split
  · exact le_refl 1
  · split
    · exact zero_le_one
    · next h1 h2 =>
        push_neg at h2
        rw [Rat.mkRat_eq_div]
        have hd : (0 : ℚ) < ((a.length + b.length - 2 : Nat) : ℚ) := by
          have : 0 < a.length + b.length - 2 := by omega
          exact_mod_cast this
        rw [div_le_one hd]
        have hIa := interCard_le_left (bigramList a) (bigramList b)
        have hIb := interCard_le_right (bigramList a) (bigramList b)
        rw [bigramList_length] at hIa
        rw [bigramList_length] at hIb
        have key : 2 * interCard (bigramList a) (bigramList b)
            ≤ a.length + b.length - 2 := by omega
        exact_mod_cast key

theorem compare_eq_one_of_eq (a b : List Char) (h : a = b) :
    compareTwoStrings a b = 1 := by
  simp [compareTwoStrings, h]

/-- Claim C8: `checkFAQ` is a pure deterministic function of the query, the
FAQ table and the threshold — equal queries give equal results — and
whenever it returns an answer, that answer belongs to an entry whose
similarity score is maximal, with every earlier entry scoring strictly
lower (ties are broken by the lowest index). -/
theorem c8_deterministic_tiebreak (ld : Bool) (faq : List FaqEntry) (th : ℚ)
    (q1 q2 : String) (h : q1 = q2) :
    checkFAQ ld faq th q1 = checkFAQ ld faq th q2 ∧
    (∀ a, checkFAQ ld faq th q1 = some a →
      ∃ i e, faq.get? i = some e ∧ a = e.answer ∧
        (∀ j ej, faq.get? j = some ej →
          compareTwoStrings (toLowerChars q1) (toLowerChars ej.question) ≤
            compareTwoStrings (toLowerChars q1) (toLowerChars e.question)) ∧
        (∀ j ej, j < i → faq.get? j = some ej →
          compareTwoStrings (toLowerChars q1) (toLowerChars ej.question) <
            compareTwoStrings (toLowerChars q1) (toLowerChars e.question))) := by
  subst h
  refine ⟨rfl, ?_⟩
  intro a ha
  cases faq with
  | nil => simp [checkFAQ] at ha
  | cons hd tl =>
      simp only [checkFAQ, List.map_cons] at ha
      split at ha
      · cases ha
      · split at ha
        · next hth =>
            obtain ⟨hget, hupper, hstrict⟩ :=
              findBestPair_spec
                (compareTwoStrings (toLowerChars q1) (toLowerChars hd.question))
                (tl.map (fun item =>
                  compareTwoStrings (toLowerChars q1) (toLowerChars item.question)))
            have hmap : ∀ j,
                (compareTwoStrings (toLowerChars q1) (toLowerChars hd.question) ::
                  tl.map (fun item =>
                    compareTwoStrings (toLowerChars q1) (toLowerChars item.question))).get? j
                = ((hd :: tl).get? j).map (fun item =>
                    compareTwoStrings (toLowerChars q1) (toLowerChars item.question)) := by
              intro j
              cases j with
              | zero => rfl
              | succ j2 => simp [List.get?_cons_succ, List.get?_map]
            cases hfe : (hd :: tl).get?
                ((findBestPair
                  (compareTwoStrings (toLowerChars q1) (toLowerChars hd.question) ::
                    tl.map (fun item =>
                      compareTwoStrings (toLowerChars q1) (toLowerChars item.question)))).2) with
            | none => rw [hfe] at ha; cases ha
            | some e =>
                rw [hfe, Option.some_inj] at ha
                have hfv : compareTwoStrings (toLowerChars q1) (toLowerChars e.question)
                    = (findBestPair
                        (compareTwoStrings (toLowerChars q1) (toLowerChars hd.question) ::
                          tl.map (fun item =>
                            compareTwoStrings (toLowerChars q1) (toLowerChars item.question)))).1 := by
                  rw [hmap, hfe] at hget
                  simpa using hget
                refine ⟨_, e, hfe, ha.symm, ?_, ?_⟩
                · intro j ej hj
                  rw [hfv]
                  refine hupper j _ ?_
                  rw [hmap, hj]
                  rfl
                · intro j ej hjlt hj
                  rw [hfv]
                  refine hstrict j _ hjlt ?_
                  rw [hmap, hj]
                  rfl
        · cases ha

/-- Witness for claim C8: The tie-break property evaluated on a two-entry table
with an exact query. -/
theorem c8_witness :
    "hello" = "hello" ∧
    (checkFAQ true
        [{ question := "greetings", answer := "A" }, { question := "hello", answer := "B" }]
        (mkRat 6 10) "hello" =
      checkFAQ true
        [{ question := "greetings", answer := "A" }, { question := "hello", answer := "B" }]
        (mkRat 6 10) "hello" ∧
    (∀ a, checkFAQ true
        [{ question := "greetings", answer := "A" }, { question := "hello", answer := "B" }]
        (mkRat 6 10) "hello" = some a →
      ∃ i e, [({ question := "greetings", answer := "A" } : FaqEntry),
          { question := "hello", answer := "B" }].get? i = some e ∧ a = e.answer ∧
        (∀ j ej, [({ question := "greetings", answer := "A" } : FaqEntry),
            { question := "hello", answer := "B" }].get? j = some ej →
          compareTwoStrings (toLowerChars "hello") (toLowerChars ej.question) ≤
            compareTwoStrings (toLowerChars "hello") (toLowerChars e.question)) ∧
        (∀ j ej, j < i → [({ question := "greetings", answer := "A" } : FaqEntry),
            { question := "hello", answer := "B" }].get? j = some ej →
          compareTwoStrings (toLowerChars "hello") (toLowerChars ej.question) <
            compareTwoStrings (toLowerChars "hello") (toLowerChars e.question)))) :=
  ⟨rfl, c8_deterministic_tiebreak true
    [{ question := "greetings", answer := "A" }, { question := "hello", answer := "B" }]
    (mkRat 6 10) "hello" "hello" rfl⟩

/-- Counterexample for claim C7: The query `"abaca"` is textually identical to
the stored question at index 1, yet the matcher returns the answer of the
index-0 entry `"acaba"`: both strings have the same bigram multiset, so
both score 1.0 and the lowest index wins — the matcher does not always
return the identical question's answer. -/
theorem c7_cx :
    ([{ question := "acaba", answer := "X" },
      { question := "abaca", answer := "Y" }] : List FaqEntry).get? 1
      = some { question := "abaca", answer := "Y" } ∧
    toLowerChars "abaca" =
      toLowerChars (FaqEntry.question { question := "abaca", answer := "Y" }) ∧
    checkFAQ true
      [{ question := "acaba", answer := "X" }, { question := "abaca", answer := "Y" }]
      (mkRat 6 10) "abaca" = some "X" ∧
    checkFAQ true
      [{ question := "acaba", answer := "X" }, { question := "abaca", answer := "Y" }]
      (mkRat 6 10) "abaca" ≠ some "Y" := by
  decide

/-- Amended claim C7: For every loaded FAQ and query textually identical
(case-insensitively) to a stored question, that entry's similarity score
is 1.0, and with any threshold at most 1.0 the matcher returns the answer
of the first entry attaining score 1.0 (every earlier entry scores
strictly below 1.0); this is the identical question's answer unless an
earlier entry also scores 1.0. -/
theorem c7_identical_scores_one (ld : Bool) (faq : List FaqEntry) (th : ℚ)
    (q : String) (i : Nat) (e : FaqEntry)
    (hld : ld = true) (hi : faq.get? i = some e)
    (hq : toLowerChars q = toLowerChars e.question) (hth : th ≤ 1) :
    compareTwoStrings (toLowerChars q) (toLowerChars e.question) = 1 ∧
    ∃ j e2, faq.get? j = some e2 ∧
      compareTwoStrings (toLowerChars q) (toLowerChars e2.question) = 1 ∧
      (∀ k ek, k < j → faq.get? k = some ek →
        compareTwoStrings (toLowerChars q) (toLowerChars ek.question) < 1) ∧
      checkFAQ ld faq th q = some e2.answer := by
  have hs1 : compareTwoStrings (toLowerChars q) (toLowerChars e.question) = 1 :=
    compare_eq_one_of_eq _ _ hq
  refine ⟨hs1, ?_⟩
  subst hld
  cases faq with
  | nil => rw [List.get?_nil] at hi; cases hi
  | cons hd tl =>
      obtain ⟨hget, hupper, hstrict⟩ :=
        findBestPair_spec
          (compareTwoStrings (toLowerChars q) (toLowerChars hd.question))
          (tl.map (fun item =>
            compareTwoStrings (toLowerChars q) (toLowerChars item.question)))
      have hmap : ∀ j,
          (compareTwoStrings (toLowerChars q) (toLowerChars hd.question) ::
            tl.map (fun item =>
              compareTwoStrings (toLowerChars q) (toLowerChars item.question))).get? j
          = ((hd :: tl).get? j).map (fun item =>
              compareTwoStrings (toLowerChars q) (toLowerChars item.question)) := by
        intro j
        cases j with
        | zero => rfl
        | succ j2 => simp [List.get?_cons_succ, List.get?_map]
      have hvge : (1 : ℚ) ≤
          (findBestPair
            (compareTwoStrings (toLowerChars q) (toLowerChars hd.question) ::
              tl.map (fun item =>
                compareTwoStrings (toLowerChars q) (toLowerChars item.question)))).1 := by
        refine hupper i 1 ?_
        rw [hmap, hi]
        simp [hs1]
      cases hfe : (hd :: tl).get?
          ((findBestPair
            (compareTwoStrings (toLowerChars q) (toLowerChars hd.question) ::
              tl.map (fun item =>
                compareTwoStrings (toLowerChars q) (toLowerChars item.question)))).2) with
      | none =>
          exfalso
          rw [hmap, hfe] at hget
          cases hget
      | some e2 =>
          have hfv : compareTwoStrings (toLowerChars q) (toLowerChars e2.question)
              = (findBestPair
                  (compareTwoStrings (toLowerChars q) (toLowerChars hd.question) ::
                    tl.map (fun item =>
                      compareTwoStrings (toLowerChars q) (toLowerChars item.question)))).1 := by
            rw [hmap, hfe] at hget
            simpa using hget
          have hv1 : (findBestPair
              (compareTwoStrings (toLowerChars q) (toLowerChars hd.question) ::
                tl.map (fun item =>
                  compareTwoStrings (toLowerChars q) (toLowerChars item.question)))).1 = 1 :=
            le_antisymm (hfv ▸ compare_le_one (toLowerChars q) (toLowerChars e2.question)) hvge
          refine ⟨_, e2, hfe, by rw [hfv, hv1], ?_, ?_⟩
          · intro k ek hk hkget
            have hlt := hstrict k
              (compareTwoStrings (toLowerChars q) (toLowerChars ek.question)) hk
              (by rw [hmap, hkget]; rfl)
            rwa [hv1] at hlt
          · have hcond : ¬((!(true : Bool) || ((hd :: tl).length == 0)) = true) := by
              simp
            have hthv : th ≤ (findBestPair
                (compareTwoStrings (toLowerChars q) (toLowerChars hd.question) ::
                  tl.map (fun item =>
                    compareTwoStrings (toLowerChars q) (toLowerChars item.question)))).1 := by
              rw [hv1]
              exact hth
            simp only [checkFAQ, List.map_cons]
            rw [if_neg hcond, if_pos hthv, hfe]

/-- Witness for claim C7: A one-entry FAQ queried with a case-variant of its
question: score 1.0 and its own answer is returned. -/
theorem c7_witness :
    (true : Bool) = true ∧
    ([{ question := "What are your hours", answer := "9am-6pm Mon-Sat" }] :
        List FaqEntry).get? 0
      = some { question := "What are your hours", answer := "9am-6pm Mon-Sat" } ∧
    toLowerChars "what are your HOURS" =
      toLowerChars (FaqEntry.question
        { question := "What are your hours", answer := "9am-6pm Mon-Sat" }) ∧
    mkRat 6 10 ≤ 1 ∧
    (compareTwoStrings (toLowerChars "what are your HOURS")
        (toLowerChars (FaqEntry.question
          { question := "What are your hours", answer := "9am-6pm Mon-Sat" })) = 1 ∧
      ∃ j e2, ([{ question := "What are your hours", answer := "9am-6pm Mon-Sat" }] :
          List FaqEntry).get? j = some e2 ∧
        compareTwoStrings (toLowerChars "what are your HOURS")
          (toLowerChars e2.question) = 1 ∧
        (∀ k ek, k < j →
          ([{ question := "What are your hours", answer := "9am-6pm Mon-Sat" }] :
            List FaqEntry).get? k = some ek →
          compareTwoStrings (toLowerChars "what are your HOURS")
            (toLowerChars ek.question) < 1) ∧
        checkFAQ true
          [{ question := "What are your hours", answer := "9am-6pm Mon-Sat" }]
          (mkRat 6 10) "what are your HOURS" = some e2.answer) :=
  ⟨rfl, rfl, by decide, by decide,
    c7_identical_scores_one true
      [{ question := "What are your hours", answer := "9am-6pm Mon-Sat" }]
      (mkRat 6 10) "what are your HOURS" 0
      { question := "What are your hours", answer := "9am-6pm Mon-Sat" }
      rfl rfl (by decide) (by decide)⟩

end Bot
